import Mathlib

/-!
Shallow embedding of the code-to-pipeline repository (a Python tool that
scans a source repository, extracts symbols from syntax trees, assembles
text chunks, and drives embedding/clustering), together with theorems
that settle the claims of its specification.

Modelling conventions:
* Pure Python functions become Lean functions with the same names.
* External capabilities (the pathspec matcher, `fnmatch`, `os.path`
  helpers, the tiktoken encoder, the tree-sitter parsers, the byte-slice
  decoder, the sentence-transformer encoder and the KMeans
  `fit_predict`) are passed in as explicit function arguments, exactly
  at the call boundaries where the source invokes them.
* Fallible calls (`open`, `os.path.getsize`, `encoding.encode`,
  `parser.parse`, `future.result()`) are modelled with `Except`:
  an `Except.error` value stands for the exception the call would raise.
* Python dicts keyed by insertion order (`defaultdict`, the cluster
  dict) are modelled as association lists that preserve insert order.
* The thread pool's completion order is modelled by quantifying over the
  list of completed per-file outcomes in an arbitrary order.
-/

namespace CodeToPipeline

/-- Single-quote character as a string; used to build the exact message
strings the source produces with f-string interpolation. -/
def squote : String := String.singleton (Char.ofNat 39)

/-- Embedding of the Python string method `lower()` (character-wise
lowercasing; faithful on the ASCII strings the source compares). -/
def py_lower (s : String) : String := String.mk (s.data.map Char.toLower)

/-! ## Data model -/

/-- One extracted function or class definition, as appended by the
`traverse` closures of `ast_analyzer.py` (fields `name`, `start_point`,
`end_point`, `llm_hint`). -/
structure Symbol where
  name : String
  start_point : Nat × Nat
  end_point : Nat × Nat
  llm_hint : String
deriving Repr, DecidableEq

/-- Result dict of the tree-sitter analyzers: either the
`functions`/`classes` lists, or the `error` dict returned on a parse
failure or a missing parser.  The `dependency_graph` entry of
`analyze_file` is a stub derived from the `functions` list alone
(`generate_dependency_graph`); no claim refers to it, so it is not
carried in the model. -/
inductive AstResult where
  | ok (functions : List Symbol) (classes : List Symbol)
  | err (msg : String)
deriving Repr, DecidableEq

/-- Result dict of `tokenize_content`: the token ids, their count and the
round-tripped text on success, or the `error` dict on a tokenizer
exception. -/
inductive TokResult where
  | ok (tokens : List Nat) (token_count : Nat) (tokenized_text : String)
  | err (msg : String)
deriving Repr, DecidableEq

/-- The per-file record assembled by `get_file_info` in
`file_scanner.py`.  `ast_analysis = none` models the record with no
`ast_analysis` key. -/
structure FileRecord where
  relative_path : String
  filename : String
  extension : String
  size_bytes : Nat
  full_content : String
  tokenization : TokResult
  llm_hint : String
  ast_analysis : Option AstResult
deriving Repr, DecidableEq

/-- The dict returned by `scan_repository` (and by `combine_results`).
`directory_structure` is an insertion-ordered association list. -/
structure ScanResult where
  repository_path : String
  total_files : Nat
  total_size_bytes : Nat
  files : List FileRecord
  directory_structure : List (String × List String)
deriving Repr, DecidableEq

/-! ## Project classifier (`project_detector.py`) -/

/-- Embedding of `detect_project_type`, applied to the directory listing
`os.listdir(repo_path)`. -/
def detect_project_type (files : List String) : String :=
  if "requirements.txt" ∈ files ∨ "setup.py" ∈ files ∨ "pyproject.toml" ∈ files then
    "python_backend"
  else if "package.json" ∈ files then
    "frontend"
  else
    "generic"

/-! ## Tokenizer wrapper (`file_scanner.tokenize_content`) -/

/-- Embedding of `tokenize_content`.  The tiktoken capability is the
`encoder` argument, returning the token ids together with the decoded
text, or the exception message. -/
def tokenize_content (encoder : String → Except String (List Nat × String))
    (content : String) : TokResult :=
  match encoder content with
  | Except.ok (token_ids, tokenized_text) =>
      TokResult.ok token_ids token_ids.length tokenized_text
  | Except.error e => TokResult.err e

/-! ## Syntax trees and the symbol extractor (`ast_analyzer.py`) -/

/-- A tree-sitter node: its grammar-rule name, byte span, (line, column)
span, and children, as exposed by the parser capability. -/
inductive TSNode where
  | mk (type : String) (start_byte : Nat) (end_byte : Nat)
       (start_point : Nat × Nat) (end_point : Nat × Nat)
       (children : List TSNode)

def TSNode.type : TSNode → String
  | .mk t _ _ _ _ _ => t

def TSNode.start_byte : TSNode → Nat
  | .mk _ sb _ _ _ _ => sb

def TSNode.end_byte : TSNode → Nat
  | .mk _ _ eb _ _ _ => eb

def TSNode.start_point : TSNode → Nat × Nat
  | .mk _ _ _ sp _ _ => sp

def TSNode.end_point : TSNode → Nat × Nat
  | .mk _ _ _ _ ep _ => ep

def TSNode.children : TSNode → List TSNode
  | .mk _ _ _ _ _ cs => cs

/-- The two string constants and two hint templates that differ between
`analyze_python_file_treesitter` and
`analyze_javascript_file_treesitter`; the traversal bodies are otherwise
identical line for line. -/
structure TraversalRules where
  function_node : String
  class_node : String
  function_hint : String → String
  class_hint : String → String

/-- Rules of `analyze_python_file_treesitter`. -/
def python_rules : TraversalRules where
  function_node := "function_definition"
  class_node := "class_definition"
  function_hint := fun nm =>
    "Examine the function " ++ squote ++ nm ++ squote ++
      " to determine its role and business logic."
  class_hint := fun nm =>
    "Analyze the class " ++ squote ++ nm ++ squote ++
      " to understand its methods and responsibilities."

/-- Rules of `analyze_javascript_file_treesitter`. -/
def javascript_rules : TraversalRules where
  function_node := "function_declaration"
  class_node := "class_declaration"
  function_hint := fun nm =>
    "Inspect the JavaScript function " ++ squote ++ nm ++ squote ++
      " to understand its functionality."
  class_hint := fun nm =>
    "Examine the JavaScript class " ++ squote ++ nm ++ squote ++
      " for its properties and methods."

mutual

/-- Embedding of the `traverse` closure: on a matching node, append a
symbol named by the first `identifier` child (the for/break loop is
`List.find?`), then recurse into the children in order.  `slice b e`
stands for `byte_content[b:e].decode("utf8")`.  The accumulator pair is
the mutable `(functions, classes)` list pair. -/
def traverse_node (rules : TraversalRules) (slice : Nat → Nat → String)
    (llm_hunt : Bool) (acc : List Symbol × List Symbol) : TSNode → List Symbol × List Symbol
  | TSNode.mk t sb eb sp ep cs =>
    let node := TSNode.mk t sb eb sp ep cs
    let acc1 :=
      if t = rules.function_node then
        match cs.find? (fun c => c.type = "identifier") with
        | some c =>
            let func_name := slice c.start_byte c.end_byte
            (acc.1 ++ [{ name := func_name, start_point := sp, end_point := ep,
                         llm_hint := if llm_hunt then rules.function_hint func_name else "" }],
             acc.2)
        | none => acc
      else if t = rules.class_node then
        match cs.find? (fun c => c.type = "identifier") with
        | some c =>
            let class_name := slice c.start_byte c.end_byte
            (acc.1,
             acc.2 ++ [{ name := class_name, start_point := sp, end_point := ep,
                         llm_hint := if llm_hunt then rules.class_hint class_name else "" }])
        | none => acc
      else acc
    traverse_list rules slice llm_hunt acc1 node.children

/-- The `for child in node.children: traverse(child)` loop. -/
def traverse_list (rules : TraversalRules) (slice : Nat → Nat → String)
    (llm_hunt : Bool) (acc : List Symbol × List Symbol) : List TSNode → List Symbol × List Symbol
  | [] => acc
  | n :: ns => traverse_list rules slice llm_hunt (traverse_node rules slice llm_hunt acc n) ns

end

/-- Embedding of `analyze_python_file_treesitter`: a parse exception
yields the typed error dict, otherwise the full pre-order traversal from
the root node. -/
def analyze_python_file_treesitter (slice : Nat → Nat → String)
    (parse_result : Except String TSNode) (llm_hunt : Bool) : AstResult :=
  match parse_result with
  | Except.error e => AstResult.err ("Tree-sitter parse error: " ++ e)
  | Except.ok root =>
      let st := traverse_node python_rules slice llm_hunt ([], []) root
      AstResult.ok st.1 st.2

/-- Embedding of `analyze_javascript_file_treesitter`: `none` for the
parse capability models `parser_js is None` (the JavaScript language
failed to load). -/
def analyze_javascript_file_treesitter (slice : Nat → Nat → String)
    (parse_result : Option (Except String TSNode)) (llm_hunt : Bool) : AstResult :=
  match parse_result with
  | none => AstResult.err "JavaScript parser is not available."
  | some (Except.error e) => AstResult.err ("Tree-sitter parse error: " ++ e)
  | some (Except.ok root) =>
      let st := traverse_node javascript_rules slice llm_hunt ([], []) root
      AstResult.ok st.1 st.2

/-- Embedding of `analyze_file`: dispatch on `language.lower()`; any
other language yields the unsupported-language error dict.  (The
`dependency_graph` entry added when `"functions" in analysis` is a stub
over the functions list and is not carried in the model.) -/
def analyze_file (slice : Nat → Nat → String)
    (parse_py : Except String TSNode) (parse_js : Option (Except String TSNode))
    (language : String) (llm_hunt : Bool) : AstResult :=
  if py_lower language = "python" then
    analyze_python_file_treesitter slice parse_py llm_hunt
  else if py_lower language = "javascript" then
    analyze_javascript_file_treesitter slice parse_js llm_hunt
  else
    AstResult.err ("AST analysis for language " ++ squote ++ language ++ squote ++
      " is not supported yet.")

/-! ## File processor (`file_scanner.get_file_info`) -/

/-- The per-file inputs that `get_file_info` obtains from `os.path` and
the filesystem: the relative path and basename, the raw
`os.path.splitext(file_path)[1]` extension, and the fallible results of
`os.path.getsize` and of reading the file. -/
structure FileInput where
  rel_path : String
  filename : String
  raw_ext : String
  size_result : Except String Nat
  read_result : Except String String

/-- The extension actually used by `get_file_info`:
`os.path.splitext(file_path)[1].lower() or "none"`. -/
def computed_ext (raw_ext : String) : String :=
  if py_lower raw_ext = "" then "none" else py_lower raw_ext

/-- The content variable of `get_file_info`: the file text, or the
sentinel string substituted when `open`/`read` raises. -/
def content_of (inp : FileInput) : String :=
  match inp.read_result with
  | Except.ok c => c
  | Except.error e => "<<Error reading file: " ++ e ++ ">>"

/-- The size variable of `get_file_info`: `os.path.getsize`, or `0` when
it raises. -/
def size_of_input (inp : FileInput) : Nat :=
  match inp.size_result with
  | Except.ok n => n
  | Except.error _ => 0

/-- Embedding of `get_file_info`.  `encoder` is the tiktoken capability,
`slice` the byte-slice decoder over a given content, `parse_py` and
`parse_js` the two tree-sitter parse capabilities (applied to the
content read for this file). -/
def get_file_info (encoder : String → Except String (List Nat × String))
    (slice : String → Nat → Nat → String)
    (parse_py : String → Except String TSNode)
    (parse_js : Option (String → Except String TSNode))
    (inp : FileInput) (project_type : String) (llm_hint : Bool) : FileRecord :=
  let ext := computed_ext inp.raw_ext
  let content := content_of inp
  let tokenized := tokenize_content encoder content
  let hint0 := "This file " ++ squote ++ inp.filename ++ squote ++ " of type " ++
    squote ++ ext ++ squote ++ " contains source code. "
  let hint1 :=
    if project_type = "python_backend" ∧ ext = ".py" then
      hint0 ++ "Focus on its function and class definitions to extract business logic."
    else if (project_type = "javascript" ∨ project_type = "typescript") ∧
        (ext = ".js" ∨ ext = ".jsx" ∨ ext = ".ts" ∨ ext = ".tsx") then
      hint0 ++ "Analyze JavaScript/TypeScript constructs for behavior and dependencies."
    else hint0
  let file_hint := hint1 ++ " Full content is provided for detailed analysis."
  let ast : Option AstResult :=
    if project_type = "python_backend" ∧ ext = ".py" then
      some (analyze_file (slice content) (parse_py content)
        (parse_js.map (fun p => p content)) "python" llm_hint)
    else if (project_type = "javascript" ∨ project_type = "typescript") ∧
        (ext = ".js" ∨ ext = ".jsx" ∨ ext = ".ts" ∨ ext = ".tsx") then
      some (analyze_file (slice content) (parse_py content)
        (parse_js.map (fun p => p content)) "javascript" llm_hint)
    else none
  { relative_path := inp.rel_path
    filename := inp.filename
    extension := ext
    size_bytes := size_of_input inp
    full_content := content
    tokenization := tokenized
    llm_hint := if llm_hint then file_hint else ""
    ast_analysis := ast }

/-! ## Scan coordinator (`file_scanner.scan_repository`) -/

/-- The constant `SENSITIVE_FILES` of `config.py`. -/
def SENSITIVE_FILES : List String := [".env", ".env.local", ".env.production"]

/-- Embedding of `get_project_specific_ignore_extensions`. -/
def get_project_specific_ignore_extensions (project_type : String) : List String :=
  if project_type = "python_backend" then [".pyc", ".pyo", ".pyd", ".so"]
  else if project_type = "typescript" then [".d.ts"]
  else if project_type = "javascript" then []
  else []

/-- One candidate file path of the submission loop of `scan_repository`:
its path relative to the root, its basename, and its
`os.path.splitext(file_path)[1].lower()` extension. -/
structure Candidate where
  rel : String
  basename : String
  ext : String
deriving Repr, DecidableEq

/-- Which of the five exclusion filters of the submission loop rejected a
candidate. -/
inductive FilterReason where
  | gitignore
  | cli_pattern
  | sensitive_file
  | project_ext
  | allow_list
deriving Repr, DecidableEq

/-- Embedding of the per-candidate filter chain in the submission loop
of `scan_repository` (the five `continue` branches, in source order).
`ignore_spec` is the compiled pathspec capability, `fnmatch` the
`fnmatch.fnmatch` capability.  `none` means the candidate is submitted
to `get_file_info`. -/
def candidate_filter (ignore_spec : String → Bool) (fnmatch : String → String → Bool)
    (ignore_patterns : List String) (include_extensions : List String)
    (project_ignore_ext : List String) (c : Candidate) : Option FilterReason :=
  if ignore_spec c.rel then some FilterReason.gitignore
  else if ignore_patterns.any (fun pat => fnmatch c.basename pat) then some FilterReason.cli_pattern
  else if c.basename ∈ SENSITIVE_FILES then some FilterReason.sensitive_file
  else if c.ext ∈ project_ignore_ext then some FilterReason.project_ext
  else if include_extensions ≠ [] ∧ c.ext ∉ include_extensions then some FilterReason.allow_list
  else none

/-- The candidates actually dispatched to the thread pool: those the
filter chain lets through, in submission order. -/
def dispatched_candidates (ignore_spec : String → Bool) (fnmatch : String → String → Bool)
    (ignore_patterns : List String) (include_extensions : List String)
    (project_ignore_ext : List String) (all_files : List Candidate) : List Candidate :=
  all_files.filter (fun c =>
    (candidate_filter ignore_spec fnmatch ignore_patterns include_extensions
      project_ignore_ext c).isNone)

/-- Append one filename under a directory key of the `defaultdict(list)`
directory structure, preserving key insertion order. -/
def ds_append : List (String × List String) → String → String → List (String × List String)
  | [], key, v => [(key, [v])]
  | (k, vs) :: rest, key, v =>
      if k = key then (k, vs ++ [v]) :: rest
      else (k, vs) :: ds_append rest key v

/-- The mutable state of the result-collection loop of
`scan_repository`: `repo_files`, `total_files`, `total_size`,
`directory_structure`. -/
structure ScanState where
  repo_files : List FileRecord
  total_files : Nat
  total_size : Nat
  directory_structure : List (String × List String)
deriving Repr, DecidableEq

/-- One iteration of the `as_completed` collection loop: a raised
`future.result()` (`Except.error`) is logged and dropped; a completed
record is appended and folded into the totals and the directory
structure.  `dirname` is the `os.path.dirname` capability. -/
def collect_step (dirname : String → String) (st : ScanState)
    (outcome : Except String FileRecord) : ScanState :=
  match outcome with
  | Except.error _ => st
  | Except.ok fi =>
      { repo_files := st.repo_files ++ [fi]
        total_files := st.total_files + 1
        total_size := st.total_size + fi.size_bytes
        directory_structure :=
          ds_append st.directory_structure (dirname fi.relative_path) fi.filename }

/-- The collection loop over the completed outcomes, in completion
order. -/
def collect_results (dirname : String → String)
    (outcomes : List (Except String FileRecord)) : ScanState :=
  outcomes.foldl (collect_step dirname) ⟨[], 0, 0, []⟩

/-- Embedding of the result assembly of `scan_repository`: `outcomes`
is the list of per-file processing outcomes in the (arbitrary) order in
which the pool completes them. -/
def scan_repository (dirname : String → String) (abs_repo_path : String)
    (outcomes : List (Except String FileRecord)) : ScanResult :=
  let st := collect_results dirname outcomes
  { repository_path := abs_repo_path
    total_files := st.total_files
    total_size_bytes := st.total_size
    files := st.repo_files
    directory_structure := st.directory_structure }

/-! ## Result merging (`main.combine_results`) -/

/-- Extend one directory key of the merged `defaultdict(list)` with a
list of filenames, preserving key insertion order. -/
def ds_extend : List (String × List String) → String → List String → List (String × List String)
  | [], key, vs => [(key, vs)]
  | (k, ws) :: rest, key, vs =>
      if k = key then (k, ws ++ vs) :: rest
      else (k, ws) :: ds_extend rest key vs

/-- One iteration of the `for res in results_list` loop of
`combine_results`. -/
def combine_step (combined res : ScanResult) : ScanResult :=
  { repository_path := combined.repository_path
    total_files := combined.total_files + res.total_files
    total_size_bytes := combined.total_size_bytes + res.total_size_bytes
    files := combined.files ++ res.files
    directory_structure :=
      res.directory_structure.foldl (fun ds kv => ds_extend ds kv.1 kv.2)
        combined.directory_structure }

/-- Embedding of `combine_results`: totals are summed, file lists
concatenated, directory structures merged key-wise, and the
`repository_path` is the literal string `"Multiple Sources"`. -/
def combine_results (results_list : List ScanResult) : ScanResult :=
  results_list.foldl combine_step
    { repository_path := "Multiple Sources"
      total_files := 0
      total_size_bytes := 0
      files := []
      directory_structure := [] }

/-! ## Chunk assembler (`main.extract_texts_for_embedding`) -/

/-- Chunk metadata: `base_meta` plus the per-chunk `type`, and `name`
for symbol chunks (file chunks carry no `name` key). -/
structure ChunkMeta where
  file : String
  path : String
  type : String
  name : Option String
deriving Repr, DecidableEq

/-- One embeddable text chunk with its provenance metadata. -/
structure Chunk where
  source : String
  metadata : ChunkMeta
deriving Repr, DecidableEq

/-- The chunk emitted for one function symbol: the hint if non-empty
(Python string truthiness of `func.get("llm_hint") or ...`), else the
synthesized fallback string. -/
def function_chunk (f : FileRecord) (s : Symbol) : Chunk :=
  { source := if s.llm_hint = "" then "Function " ++ s.name ++ " in " ++ f.filename
              else s.llm_hint
    metadata := { file := f.filename, path := f.relative_path,
                  type := "function", name := some s.name } }

/-- The chunk emitted for one class symbol. -/
def class_chunk (f : FileRecord) (s : Symbol) : Chunk :=
  { source := if s.llm_hint = "" then "Class " ++ s.name ++ " in " ++ f.filename
              else s.llm_hint
    metadata := { file := f.filename, path := f.relative_path,
                  type := "class", name := some s.name } }

/-- The file-level fallback chunk: the file hint if non-empty, else the
full content (`file.get("llm_hint") or file.get("full_content", "")`). -/
def file_chunk (f : FileRecord) : Chunk :=
  { source := if f.llm_hint = "" then f.full_content else f.llm_hint
    metadata := { file := f.filename, path := f.relative_path,
                  type := "file", name := none } }

/-- The chunks appended for one file record: when the `ast_analysis`
dict is present and truthy, its `functions` then its `classes` (an error
dict has neither key, so `ast_data.get("functions", [])` is empty), then
always the single file-level fallback chunk. -/
def chunks_for_file (f : FileRecord) : List Chunk :=
  (match f.ast_analysis with
   | some (AstResult.ok fns cls) => fns.map (function_chunk f) ++ cls.map (class_chunk f)
   | some (AstResult.err _) => []
   | none => []) ++ [file_chunk f]

/-- Embedding of `extract_texts_for_embedding`: the per-file chunk lists
appended in file order. -/
def extract_texts_for_embedding (files : List FileRecord) : List Chunk :=
  files.foldl (fun chunks f => chunks ++ chunks_for_file f) []

/-! ## Embedding/cluster orchestration (the embedding block of `main`) -/

/-- Embedding of the Python string method `strip()`: drop whitespace
from both ends (faithful on ASCII whitespace). -/
def py_strip (s : String) : String :=
  String.mk (((s.data.dropWhile Char.isWhitespace).reverse.dropWhile Char.isWhitespace).reverse)

/-- Python truthiness of `source.strip()`: true when the text is empty
or whitespace-only. -/
def is_blank (s : String) : Bool := py_strip s = ""

/-- One entry of the `granular_embeddings` list, generic over the opaque
vector type produced by the embedding capability. -/
structure Granular (V : Type) where
  source : String
  metadata : ChunkMeta
  embedding : V
  cluster : Option Int
deriving Repr, DecidableEq

/-- The `clusters.setdefault(int(label), []).append(idx)` update of
`cluster_embeddings`, on an insertion-ordered association list. -/
def add_to_clusters : List (Int × List Nat) → Int → Nat → List (Int × List Nat)
  | [], label, idx => [(label, [idx])]
  | (l, is) :: rest, label, idx =>
      if l = label then (l, is ++ [idx]) :: rest
      else (l, is) :: add_to_clusters rest label idx

/-- Embedding of `embedding_generator.cluster_embeddings`: the KMeans
capability `fit_predict` yields one integer label per vector; the result
maps each label to the indices carrying it, in first-seen order. -/
def cluster_embeddings {V : Type} (fit_predict : List V → List Int)
    (embeddings : List V) : List (Int × List Nat) :=
  (fit_predict embeddings).enum.foldl (fun cs p => add_to_clusters cs p.2 p.1) []

/-- The `cluster_assignment` list built in `main`: a `None`-filled list
of length `len(texts_for_embedding)`, then `cluster_assignment[idx] =
label` for every index of every cluster. -/
def build_assignment (clusters : List (Int × List Nat)) (n : Nat) : List (Option Int) :=
  clusters.foldl
    (fun asg p => p.2.foldl (fun a idx => a.set idx (some p.1)) asg)
    (List.replicate n none)

/-- The `granular_embeddings` loop of `main`: for `i, chunk in
enumerate(text_chunks)` it reads `embeddings[i]` and
`cluster_assignment[i]`; an out-of-range index raises `IndexError`,
modelled by `none`. -/
def build_granular {V : Type} (chunks : List Chunk) (embeddings : List V)
    (assignment : List (Option Int)) : Option (List (Granular V)) :=
  chunks.enum.mapM (fun p =>
    match embeddings.get? p.1, assignment.get? p.1 with
    | some v, some cl =>
        some { source := p.2.source, metadata := p.2.metadata,
               embedding := v, cluster := cl }
    | _, _ => none)

/-- Outcome of the embedding block of `main`: it either skips embedding
entirely (`texts_for_embedding` empty), produces the granular list, or
raises an uncaught `IndexError` while joining results back onto chunks. -/
inductive EmbedOutcome (V : Type) where
  | skipped
  | produced (granular_embeddings : List (Granular V))
  | crashed
deriving Repr, DecidableEq

/-- Embedding of the embedding block of `main` (the `if not
args.no_embeddings` body): filter the blank chunks, embed the surviving
texts (`embed` is the sentence-transformer capability, one vector per
text in order), cluster, rebuild the per-index assignment, and join back
onto the full chunk list by enumeration index. -/
def embedding_block {V : Type} (embed : List String → List V)
    (fit_predict : List V → List Int) (text_chunks : List Chunk) : EmbedOutcome V :=
  let texts_for_embedding :=
    (text_chunks.filter (fun c => !(is_blank c.source))).map (fun c => c.source)
  if texts_for_embedding.isEmpty then EmbedOutcome.skipped
  else
    let embeddings := embed texts_for_embedding
    let clusters := cluster_embeddings fit_predict embeddings
    let cluster_assignment := build_assignment clusters texts_for_embedding.length
    match build_granular text_chunks embeddings cluster_assignment with
    | some gs => EmbedOutcome.produced gs
    | none => EmbedOutcome.crashed

/-! ## Scan cache decision and final document (`main`) -/

/-- Embedding of the cache decision of `main`: `if cache_data and
cache_data.get("repository_path") == os.path.abspath(path)` use the
cached result, else perform (and cache) the fresh scan.  `none` models
both a missing and an unreadable cache file (`load_cache` returns
`None` for either). -/
def scan_or_cache (cache_data : Option ScanResult) (abs_path : String)
    (fresh_scan : ScanResult) : ScanResult :=
  match cache_data with
  | some d => if d.repository_path = abs_path then d else fresh_scan
  | none => fresh_scan

/-- Whether the cache decision of `main` accepts the cached result. -/
def cache_hit (cache_data : Option ScanResult) (abs_path : String) : Bool :=
  match cache_data with
  | some d => decide (d.repository_path = abs_path)
  | none => false

/-- The `repository_metadata` block of the final output document. -/
structure RepoMeta where
  repository_path : String
  total_files : Nat
  total_size_bytes : Nat
deriving Repr, DecidableEq

/-- The final output document assembled at the end of `main` (the
`pipeline_definition` entry is rendered from a static template and is
not carried in the model). -/
structure OutputDoc where
  repository_metadata : RepoMeta
  project_tree : String
  directory_structure : List (String × List String)
  files : List FileRecord
  embeddings_file : Option String
deriving Repr, DecidableEq

/-- Embedding of the `output` dict construction of `main`. -/
def build_output (combined_result : ScanResult) (project_tree : String)
    (embeddings_file : Option String) : OutputDoc :=
  { repository_metadata :=
      { repository_path := combined_result.repository_path
        total_files := combined_result.total_files
        total_size_bytes := combined_result.total_size_bytes }
    project_tree := project_tree
    directory_structure := combined_result.directory_structure
    files := combined_result.files
    embeddings_file := embeddings_file }

/-! ## Specification-side definitions

The following definitions are written from the specification's words,
not from the source; the refinement theorems below compare them with the
source-derived definitions above. -/

/-- Specification side, for the filtering-order claim: the five
exclusion filters as (reason, fires?) pairs, in the order the spec
states them: gitignore rule, CLI glob on the basename, sensitive
filename exact match, project-specific denied extension, non-empty
allow-list exclusion. -/
def filter_stages (ignore_spec : String → Bool) (fnmatch : String → String → Bool)
    (ignore_patterns : List String) (include_extensions : List String)
    (project_ignore_ext : List String) (c : Candidate) : List (FilterReason × Bool) :=
  [(FilterReason.gitignore, ignore_spec c.rel),
   (FilterReason.cli_pattern, ignore_patterns.any (fun pat => fnmatch c.basename pat)),
   (FilterReason.sensitive_file, decide (c.basename ∈ SENSITIVE_FILES)),
   (FilterReason.project_ext, decide (c.ext ∈ project_ignore_ext)),
   (FilterReason.allow_list, decide (include_extensions ≠ [] ∧ c.ext ∉ include_extensions))]

/-- Specification side: the first filter that fires, short-circuiting,
or `none` when all five let the candidate through. -/
def first_matching_filter (stages : List (FilterReason × Bool)) : Option FilterReason :=
  (stages.find? (fun s => s.2)).map (fun s => s.1)

mutual

/-- Specification side: the full pre-order traversal of a syntax tree
(node first, then its children left to right). -/
def preorder : TSNode → List TSNode
  | TSNode.mk t sb eb sp ep cs => TSNode.mk t sb eb sp ep cs :: preorder_list cs

/-- Pre-order traversal of a forest of sibling subtrees. -/
def preorder_list : List TSNode → List TSNode
  | [] => []
  | n :: ns => preorder n ++ preorder_list ns

end

/-- Specification side, for the symbol-extraction claim: a node matching
the given grammar-rule name yields a symbol named by its first child of
`identifier` type, with start and end positions copied verbatim from the
node's span; a matching node with no identifier child yields no symbol
(and no error), and a non-matching node yields nothing. -/
def symbol_of_node (slice : Nat → Nat → String) (llm_hunt : Bool)
    (kind_node : String) (kind_hint : String → String) (n : TSNode) : Option Symbol :=
  if n.type = kind_node then
    (n.children.find? (fun c => c.type = "identifier")).map (fun c =>
      let nm := slice c.start_byte c.end_byte
      { name := nm, start_point := n.start_point, end_point := n.end_point,
        llm_hint := if llm_hunt then kind_hint nm else "" })
  else none

/-! ## Measures and auxiliary predicates -/

mutual

/-- Node count of a syntax tree, used as an induction measure. -/
def tsnode_size : TSNode → Nat
  | TSNode.mk _ _ _ _ _ cs => 1 + tslist_size cs

/-- Node count of a forest, used as an induction measure. -/
def tslist_size : List TSNode → Nat
  | [] => 0
  | n :: ns => 1 + tsnode_size n + tslist_size ns

end

/-- The totals invariant of a scan result: `total_files == len(files)`
and `total_size_bytes == sum(f.size_bytes for f in files)`. -/
def totals_invariant (r : ScanResult) : Prop :=
  r.total_files = r.files.length ∧
  r.total_size_bytes = (r.files.map FileRecord.size_bytes).sum

/-- Whether a file record carries a typed error value in any of its
error-capable sub-fields (the tokenizer error dict or the AST error
dict); these are the only typed error slots a record has. -/
def has_typed_error (r : FileRecord) : Bool :=
  (match r.tokenization with
   | TokResult.err _ => true
   | TokResult.ok _ _ _ => false) ||
  (match r.ast_analysis with
   | some (AstResult.err _) => true
   | _ => false)

/-- The record a per-file outcome contributes to the scan, if any. -/
def outcome_record : Except String FileRecord → Option FileRecord
  | Except.ok r => some r
  | Except.error _ => none

/-! ## Concrete capability stand-ins and fixtures used by the closed
theorems below -/

/-- A tokenizer capability that always succeeds. -/
def ok_encoder : String → Except String (List Nat × String) :=
  fun s => Except.ok ([0], s)

/-- A tokenizer capability that always raises. -/
def err_encoder : String → Except String (List Nat × String) :=
  fun _ => Except.error "tokenizer failed"

/-- A byte-slice decoder stand-in. -/
def byte_slice0 : String → Nat → Nat → String := fun _ _ _ => "x"

/-- A parse capability returning an empty module tree. -/
def parse_ok0 : String → Except String TSNode :=
  fun _ => Except.ok (TSNode.mk "module" 0 0 (0, 0) (0, 0) [])

/-- A parse capability that always raises. -/
def parse_err0 : String → Except String TSNode :=
  fun _ => Except.error "bad bytes"

/-- A file whose read fails; only its metadata is recoverable. -/
def c6_unreadable_input : FileInput :=
  { rel_path := "data.bin", filename := "data.bin", raw_ext := ".bin",
    size_result := Except.error "Permission denied",
    read_result := Except.error "Permission denied" }

/-- A Python file on which every fallible capability fails. -/
def c6_bad_input : FileInput :=
  { rel_path := "pkg/mod.py", filename := "mod.py", raw_ext := ".py",
    size_result := Except.ok 4, read_result := Except.error "boom" }

/-- A record whose sole fallback chunk has empty text. -/
def c1_empty_record : FileRecord :=
  { relative_path := "empty.txt", filename := "empty.txt", extension := ".txt",
    size_bytes := 0, full_content := "", tokenization := TokResult.ok [] 0 "",
    llm_hint := "", ast_analysis := none }

/-- A record whose sole fallback chunk has non-blank text. -/
def c1_code_record : FileRecord :=
  { relative_path := "util.py", filename := "util.py", extension := ".py",
    size_bytes := 15, full_content := "def foo(): pass",
    tokenization := TokResult.ok [1, 2] 2 "def foo(): pass",
    llm_hint := "", ast_analysis := none }

/-- An embedding capability stand-in: the vector of a text is the text
itself (order-preserving, one vector per input, as the contract
requires). -/
def c1_embed : List String → List String := fun texts => texts

/-- A clustering capability stand-in: every vector gets label 0. -/
def c1_fit_predict : List String → List Int := fun vs => vs.map (fun _ => 0)

/-- Function symbol fixture without a hint. -/
def c5_fn_symbol : Symbol :=
  { name := "foo", start_point := (0, 0), end_point := (2, 0), llm_hint := "" }

/-- Class symbol fixture with a hint. -/
def c5_cls_symbol : Symbol :=
  { name := "Bar", start_point := (3, 0), end_point := (9, 0),
    llm_hint := "Analyze the class Bar." }

/-- A Python file record with one function and one class symbol. -/
def c5_record : FileRecord :=
  { relative_path := "a.py", filename := "a.py", extension := ".py",
    size_bytes := 40, full_content := "file body", tokenization := TokResult.ok [5] 1 "file body",
    llm_hint := "", ast_analysis := some (AstResult.ok [c5_fn_symbol] [c5_cls_symbol]) }

/-- File record fixtures for the totals witness. -/
def c3_rec1 : FileRecord :=
  { relative_path := "a.py", filename := "a.py", extension := ".py",
    size_bytes := 3, full_content := "abc", tokenization := TokResult.ok [1] 1 "abc",
    llm_hint := "", ast_analysis := none }

/-- Second file record fixture for the totals witness. -/
def c3_rec2 : FileRecord :=
  { relative_path := "d/b.md", filename := "b.md", extension := ".md",
    size_bytes := 7, full_content := "doc text", tokenization := TokResult.err "nope",
    llm_hint := "", ast_analysis := none }

/-- Scan result fixture satisfying the totals invariant. -/
def c3_result1 : ScanResult :=
  { repository_path := "/repo", total_files := 2, total_size_bytes := 10,
    files := [c3_rec1, c3_rec2], directory_structure := [(".", ["a.py"]), ("d", ["b.md"])] }

/-- Second scan result fixture satisfying the totals invariant. -/
def c3_result2 : ScanResult :=
  { repository_path := "/other", total_files := 1, total_size_bytes := 3,
    files := [c3_rec1], directory_structure := [(".", ["a.py"])] }

/-- Cached scan result fixture. -/
def c9_cached : ScanResult :=
  { repository_path := "/repo", total_files := 1, total_size_bytes := 3,
    files := [c3_rec1], directory_structure := [(".", ["a.py"])] }

/-- A stale cache payload: same `repository_path` as `c9_cached`, but
different contents. -/
def c9_stale : ScanResult :=
  { repository_path := "/repo", total_files := 0, total_size_bytes := 0,
    files := [], directory_structure := [] }

/-- Fresh scan fixture for the cache witness. -/
def c9_fresh : ScanResult :=
  { repository_path := "/repo", total_files := 2, total_size_bytes := 10,
    files := [c3_rec1, c3_rec2], directory_structure := [(".", ["a.py"]), ("d", ["b.md"])] }

/-- The sensitive-basename candidate used by the filtering witness. -/
def c4_candidate : Candidate :=
  { rel := "conf/.env", basename := ".env", ext := "" }

/-! ## Helper lemmas -/

/-- The chunk-collection fold of `extract_texts_for_embedding` appends
the per-file chunk lists in file order. -/
theorem extract_texts_foldl (files : List FileRecord) (acc : List Chunk) :
    files.foldl (fun chunks f => chunks ++ chunks_for_file f) acc =
      acc ++ (files.map chunks_for_file).flatten := by
  induction files generalizing acc with
  | nil => simp
  | cons f fs ih => simp [ih, List.append_assoc]

/-- `extract_texts_for_embedding` splits over list concatenation. -/
theorem extract_texts_eq_join (files : List FileRecord) :
    extract_texts_for_embedding files = (files.map chunks_for_file).flatten := by
  simpa using extract_texts_foldl files []

/-- State-passing characterization of the result-collection loop: every
completed record is appended (in completion order), every raised outcome
is dropped, and the totals are the running count and size sum of the
appended records. -/
theorem collect_results_foldl (dirname : String → String)
    (outcomes : List (Except String FileRecord)) (st : ScanState) :
    (outcomes.foldl (collect_step dirname) st).repo_files =
        st.repo_files ++ outcomes.filterMap outcome_record ∧
    (outcomes.foldl (collect_step dirname) st).total_files =
        st.total_files + (outcomes.filterMap outcome_record).length ∧
    (outcomes.foldl (collect_step dirname) st).total_size =
        st.total_size + ((outcomes.filterMap outcome_record).map FileRecord.size_bytes).sum := by
  induction outcomes generalizing st with
  | nil => simp
  | cons o os ih =>
    cases o with
    | error e =>
        simpa [collect_step, outcome_record] using ih st
    | ok r =>
        have h := ih (collect_step dirname st (Except.ok r))
        simp only [List.foldl_cons] at *
        refine ⟨?_, ?_, ?_⟩
        · rw [h.1]; simp [collect_step, outcome_record, List.append_assoc]
        · rw [h.2.1]; simp [collect_step, outcome_record]; omega
        · rw [h.2.2]; simp [collect_step, outcome_record]; omega

/-- The merge fold of `combine_results` never changes the
`repository_path` of its accumulator. -/
theorem combine_foldl_path (l : List ScanResult) (init : ScanResult) :
    (l.foldl combine_step init).repository_path = init.repository_path := by
  induction l generalizing init with
  | nil => rfl
  | cons r rs ih => simpa [combine_step] using ih (combine_step init r)

/-- The merge fold of `combine_results` preserves the totals invariant
when every merged result satisfies it. -/
theorem combine_foldl_totals (l : List ScanResult) (init : ScanResult)
    (hinit : totals_invariant init) (h : ∀ r ∈ l, totals_invariant r) :
    totals_invariant (l.foldl combine_step init) := by
  induction l generalizing init with
  | nil => exact hinit
  | cons r rs ih =>
    refine ih (combine_step init r) ?_ (fun x hx => h x (List.mem_cons_of_mem r hx))
    have hr := h r (List.mem_cons_self r rs)
    exact ⟨by simp [combine_step, hinit.1, hr.1],
           by simp [combine_step, hinit.2, hr.2]⟩

/-- The state-passing traversal of the analyzers equals the pre-order
filterMap of the per-node specification, for any rule set whose two
grammar-rule names differ (as they do in both analyzers).  Proved by
strong induction on the node count. -/
theorem traverse_spec (rules : TraversalRules) (slice : Nat → Nat → String) (hunt : Bool)
    (hne : rules.function_node ≠ rules.class_node) :
    ∀ fuel : Nat,
      (∀ n : TSNode, tsnode_size n ≤ fuel → ∀ acc : List Symbol × List Symbol,
        traverse_node rules slice hunt acc n =
          (acc.1 ++ (preorder n).filterMap
              (symbol_of_node slice hunt rules.function_node rules.function_hint),
           acc.2 ++ (preorder n).filterMap
              (symbol_of_node slice hunt rules.class_node rules.class_hint))) ∧
      (∀ ns : List TSNode, tslist_size ns ≤ fuel → ∀ acc : List Symbol × List Symbol,
        traverse_list rules slice hunt acc ns =
          (acc.1 ++ (preorder_list ns).filterMap
              (symbol_of_node slice hunt rules.function_node rules.function_hint),
           acc.2 ++ (preorder_list ns).filterMap
              (symbol_of_node slice hunt rules.class_node rules.class_hint))) := by
  intro fuel
  induction fuel with
  | zero =>
    constructor
    · intro n hn
      exfalso
      cases n with
      | mk t sb eb sp ep cs => simp [tsnode_size] at hn
    · intro ns hns acc
      cases ns with
      | nil => simp [traverse_list, preorder_list]
      | cons n rest => simp [tslist_size] at hns
  | succ k ih =>
    constructor
    · intro n hn acc
      cases n with
      | mk t sb eb sp ep cs =>
        have hcs : tslist_size cs ≤ k := by
          simp [tsnode_size] at hn; omega
        rw [traverse_node]
        simp only [TSNode.children]
        rw [ih.2 cs hcs]
        by_cases h1 : t = rules.function_node
        · have h2 : ¬ rules.function_node = rules.class_node := hne
          subst h1
          cases hfind : cs.find? (fun c => c.type = "identifier") with
          | some c =>
            simp only [TSNode.type] at hfind
            simp [preorder, List.filterMap_cons, symbol_of_node, TSNode.type, TSNode.children,
                  TSNode.start_point, TSNode.end_point, h2, hfind, List.append_assoc]
          | none =>
            simp only [TSNode.type] at hfind
            simp [preorder, List.filterMap_cons, symbol_of_node, TSNode.type, TSNode.children,
                  TSNode.start_point, TSNode.end_point, h2, hfind]
        · by_cases h2 : t = rules.class_node
          · subst h2
            cases hfind : cs.find? (fun c => c.type = "identifier") with
            | some c =>
              simp only [TSNode.type] at hfind
              simp [preorder, List.filterMap_cons, symbol_of_node, TSNode.type, TSNode.children,
                    TSNode.start_point, TSNode.end_point, h1, hfind, List.append_assoc]
            | none =>
              simp only [TSNode.type] at hfind
              simp [preorder, List.filterMap_cons, symbol_of_node, TSNode.type, TSNode.children,
                    TSNode.start_point, TSNode.end_point, h1, hfind]
          · simp [preorder, List.filterMap_cons, symbol_of_node, TSNode.type, TSNode.children,
                  TSNode.start_point, TSNode.end_point, h1, h2]
    · intro ns hns acc
      cases ns with
      | nil => simp [traverse_list, preorder_list]
      | cons n rest =>
        have hn : tsnode_size n ≤ k := by
          simp [tslist_size] at hns; omega
        have hrest : tslist_size rest ≤ k := by
          simp [tslist_size] at hns; omega
        rw [traverse_list, ih.1 n hn, ih.2 rest hrest]
        simp [preorder_list, List.filterMap_append, List.append_assoc]

/-! ## Claim theorems -/

/-- C10: `combine_results` sets the merged `repository_path` to the
literal string "Multiple Sources" for every input list, including a
singleton, and the final output document's
`repository_metadata.repository_path` is therefore that constant (never
the scanned root's actual path) whenever the combining step runs. -/
theorem C10_repository_path_is_multiple_sources (results_list : List ScanResult)
    (project_tree : String) (embeddings_file : Option String) :
    (combine_results results_list).repository_path = "Multiple Sources" ∧
    (∀ r : ScanResult, (combine_results [r]).repository_path = "Multiple Sources") ∧
    (build_output (combine_results results_list) project_tree
        embeddings_file).repository_metadata.repository_path = "Multiple Sources" := by
  refine ⟨?_, fun r => ?_, ?_⟩ <;>
    simp [build_output, combine_results, combine_step, combine_foldl_path]

/-- C3: the result of `scan_repository` satisfies
`total_files == len(files)` and `total_size_bytes == sum of size_bytes`
for every list of per-file outcomes in every completion order, and
`combine_results` preserves that invariant for every list of scan
results satisfying it. -/
theorem C3_totals_consistency (dirname : String → String) (abs_repo_path : String)
    (outcomes : List (Except String FileRecord)) (results_list : List ScanResult)
    (h : ∀ r ∈ results_list, totals_invariant r) :
    totals_invariant (scan_repository dirname abs_repo_path outcomes) ∧
    totals_invariant (combine_results results_list) := by
  constructor
  · have hc := collect_results_foldl dirname outcomes ⟨[], 0, 0, []⟩
    refine ⟨?_, ?_⟩
    · simp only [scan_repository, collect_results]
      rw [hc.2.1, hc.1]; simp
    · simp only [scan_repository, collect_results]
      rw [hc.2.2, hc.1]; simp
  · exact combine_foldl_totals results_list _ (by constructor <;> rfl) h

/-- Witness for C3 at concrete inputs: a scan with two completed records
and one raised outcome, and a merge of two well-formed scan results. -/
theorem C3_totals_consistency_witness :
    totals_invariant (scan_repository (fun _ => ".") "/repo"
      [Except.ok c3_rec1, Except.error "worker raised", Except.ok c3_rec2]) ∧
    totals_invariant (combine_results [c3_result1, c3_result2]) :=
  C3_totals_consistency (fun _ => ".") "/repo"
    [Except.ok c3_rec1, Except.error "worker raised", Except.ok c3_rec2]
    [c3_result1, c3_result2]
    (by intro r hr; fin_cases hr <;> exact ⟨by decide, by decide⟩)

/-- C9: with caching enabled, the cached scan result is used if and only
if its `repository_path` equals the requested root's absolute path; a
path mismatch (or an absent cache) triggers the fresh scan; and the
decision reads nothing but the `repository_path` field, so two cache
payloads agreeing on that field are accepted or rejected alike (no
content-hash or modification-time check exists). -/
theorem C9_cache_used_iff_path_matches (cache_data : Option ScanResult)
    (abs_path : String) (fresh_scan : ScanResult) (d1 d2 : ScanResult) :
    (cache_hit cache_data abs_path = true ↔
      ∃ d, cache_data = some d ∧ d.repository_path = abs_path) ∧
    (∀ d, cache_data = some d → d.repository_path = abs_path →
      scan_or_cache cache_data abs_path fresh_scan = d) ∧
    (cache_hit cache_data abs_path = false →
      scan_or_cache cache_data abs_path fresh_scan = fresh_scan) ∧
    (d1.repository_path = d2.repository_path →
      cache_hit (some d1) abs_path = cache_hit (some d2) abs_path) := by
  refine ⟨?_, ?_, ?_, ?_⟩
  · cases cache_data with
    | none => simp [cache_hit]
    | some d => simp [cache_hit]
  · intro d hd hpath
    subst hd
    simp [scan_or_cache, hpath]
  · intro hmiss
    cases cache_data with
    | none => rfl
    | some d =>
      simp [cache_hit] at hmiss
      simp [scan_or_cache, hmiss]
  · intro hsame
    simp [cache_hit, hsame]

/-- Witness for C9 at concrete inputs: a matching cache is returned
as-is, a mismatching path falls through to the fresh scan, and a stale
payload with the same path is treated exactly like the current one. -/
theorem C9_cache_used_iff_path_matches_witness :
    scan_or_cache (some c9_cached) "/repo" c9_fresh = c9_cached ∧
    scan_or_cache (some c9_cached) "/elsewhere" c9_fresh = c9_fresh ∧
    cache_hit (some c9_cached) "/repo" = cache_hit (some c9_stale) "/repo" := by
  refine ⟨?_, ?_, ?_⟩
  · exact (C9_cache_used_iff_path_matches (some c9_cached) "/repo" c9_fresh
      c9_cached c9_stale).2.1 c9_cached rfl rfl
  · exact (C9_cache_used_iff_path_matches (some c9_cached) "/elsewhere" c9_fresh
      c9_cached c9_stale).2.2.1 (by decide)
  · exact (C9_cache_used_iff_path_matches (some c9_cached) "/repo" c9_fresh
      c9_cached c9_stale).2.2.2 (by decide)

/-- C8: for every declared language whose lowercase form is neither
"python" nor "javascript", `analyze_file` returns the typed
unsupported-language error dict (the dispatch is total: the else branch
constructs a value, it raises nothing). -/
theorem C8_unsupported_language (slice : Nat → Nat → String)
    (parse_py : Except String TSNode) (parse_js : Option (Except String TSNode))
    (language : String) (llm_hunt : Bool)
    (h1 : py_lower language ≠ "python") (h2 : py_lower language ≠ "javascript") :
    analyze_file slice parse_py parse_js language llm_hunt =
      AstResult.err ("AST analysis for language " ++ squote ++ language ++ squote ++
        " is not supported yet.") := by
  unfold analyze_file
  rw [if_neg h1, if_neg h2]

/-- Witness for C8 at the concrete language "Rust". -/
theorem C8_unsupported_language_witness :
    analyze_file (fun _ _ => "") (Except.ok (TSNode.mk "module" 0 0 (0, 0) (0, 0) []))
        none "Rust" false =
      AstResult.err ("AST analysis for language " ++ squote ++ "Rust" ++ squote ++
        " is not supported yet.") :=
  C8_unsupported_language (fun _ _ => "")
    (Except.ok (TSNode.mk "module" 0 0 (0, 0) (0, 0) [])) none "Rust" false
    (by decide) (by decide)

/-- C4: the per-candidate exclusion decision of the submission loop of
`scan_repository` equals the first-match traversal of the five filters
in the stated order (gitignore rule, CLI glob on the basename, sensitive
filename exact match, project-specific denied extension, non-empty
allow-list exclusion), and a candidate rejected by the chain is never
dispatched to the file processor. -/
theorem C4_filter_order_and_no_dispatch (ignore_spec : String → Bool)
    (fnmatch : String → String → Bool)
    (ignore_patterns include_extensions project_ignore_ext : List String)
    (all_files : List Candidate) (c : Candidate)
    (hmatch : (candidate_filter ignore_spec fnmatch ignore_patterns include_extensions
        project_ignore_ext c).isSome = true) :
    candidate_filter ignore_spec fnmatch ignore_patterns include_extensions
        project_ignore_ext c =
      first_matching_filter (filter_stages ignore_spec fnmatch ignore_patterns
        include_extensions project_ignore_ext c) ∧
    c ∉ dispatched_candidates ignore_spec fnmatch ignore_patterns include_extensions
        project_ignore_ext all_files := by
  constructor
  · simp only [candidate_filter, filter_stages, first_matching_filter]
    cases h1 : ignore_spec c.rel with
    | true => simp [List.find?, h1]
    | false =>
      cases h2 : ignore_patterns.any (fun pat => fnmatch c.basename pat) with
      | true => simp [List.find?, h1, h2]
      | false =>
        by_cases h3 : c.basename ∈ SENSITIVE_FILES
        · simp [List.find?, h1, h2, h3]
        · by_cases h4 : c.ext ∈ project_ignore_ext
          · simp [List.find?, h1, h2, h3, h4]
          · by_cases h5 : include_extensions ≠ [] ∧ c.ext ∉ include_extensions
            · simp [List.find?, h1, h2, h3, h4, h5]
            · simp [List.find?, h1, h2, h3, h4, h5]
  · intro hdis
    have hnone := (List.mem_filter.mp hdis).2
    rw [Option.isNone_iff_eq_none] at hnone
    rw [hnone] at hmatch
    simp at hmatch

/-- Witness for C4 at a concrete candidate (`.env`, matched by the
sensitive-filename filter after the first two filters decline). -/
theorem C4_filter_order_and_no_dispatch_witness :
    candidate_filter (fun _ => false) (fun b p => b == p) ["*.log"] []
        (get_project_specific_ignore_extensions "python_backend") c4_candidate =
      first_matching_filter (filter_stages (fun _ => false) (fun b p => b == p) ["*.log"] []
        (get_project_specific_ignore_extensions "python_backend") c4_candidate) ∧
    c4_candidate ∉ dispatched_candidates (fun _ => false) (fun b p => b == p) ["*.log"] []
        (get_project_specific_ignore_extensions "python_backend") [c4_candidate] :=
  C4_filter_order_and_no_dispatch (fun _ => false) (fun b p => b == p) ["*.log"] []
    (get_project_specific_ignore_extensions "python_backend") [c4_candidate] c4_candidate
    (by decide)

/-- C2 counterexample: the project classifier labels a repository with a
JS package manifest "frontend", yet `get_file_info` under that very
label attaches no `ast_analysis` to a `.js` file, refuting the claim
that the classifier's frontend-family label with a JS/TS extension
triggers the symbol extractor. -/
theorem C2_frontend_label_counterexample :
    detect_project_type ["package.json", "index.js"] = "frontend" ∧
    (get_file_info ok_encoder byte_slice0 parse_ok0 (some parse_ok0)
      { rel_path := "index.js", filename := "index.js", raw_ext := ".js",
        size_result := Except.ok 9, read_result := Except.ok "var x = 1" }
      (detect_project_type ["package.json", "index.js"]) false).ast_analysis = none := by
  decide

/-- C2 (amended): `analyze_file` is invoked — equivalently, the record
has an `ast_analysis` field — exactly when the project type is
"python_backend" with computed extension ".py", or the project type is
the literal "javascript" or "typescript" with a computed extension in
the fixed JS/TS set; and the classifier never assigns those two
qualifying labels (its JS label is "frontend"). -/
theorem C2_ast_analysis_condition (encoder : String → Except String (List Nat × String))
    (slice : String → Nat → Nat → String)
    (parse_py : String → Except String TSNode)
    (parse_js : Option (String → Except String TSNode))
    (inp : FileInput) (project_type : String) (llm_hint : Bool) :
    ((get_file_info encoder slice parse_py parse_js inp project_type
        llm_hint).ast_analysis.isSome = true ↔
      ((project_type = "python_backend" ∧ computed_ext inp.raw_ext = ".py") ∨
       ((project_type = "javascript" ∨ project_type = "typescript") ∧
        (computed_ext inp.raw_ext = ".js" ∨ computed_ext inp.raw_ext = ".jsx" ∨
         computed_ext inp.raw_ext = ".ts" ∨ computed_ext inp.raw_ext = ".tsx")))) ∧
    (∀ listing : List String,
      detect_project_type listing ≠ "javascript" ∧
      detect_project_type listing ≠ "typescript") := by
  constructor
  · simp only [get_file_info]
    split_ifs with h1 h2 <;> simp_all
  · intro listing
    unfold detect_project_type
    split_ifs <;> exact ⟨by decide, by decide⟩

/-- C5: for a file record whose AST analysis holds `fns` functions and
`cls` classes, the chunk assembler emits, between the chunks of the
surrounding files, exactly the function chunks in list order, then the
class chunks in list order, then one file-level fallback chunk; symbol
chunk text is the hint when non-empty, else the synthesized string
naming the symbol and its file, and the file chunk text is the file hint
when non-empty, else the full content.  In particular the file
contributes `fns.length + cls.length + 1` chunks. -/
theorem C5_chunks_per_file (pre post : List FileRecord) (f : FileRecord)
    (fns cls : List Symbol) (h : f.ast_analysis = some (AstResult.ok fns cls)) :
    extract_texts_for_embedding (pre ++ f :: post) =
      extract_texts_for_embedding pre ++
        (fns.map (fun s =>
          { source := if s.llm_hint = "" then "Function " ++ s.name ++ " in " ++ f.filename
                      else s.llm_hint,
            metadata := { file := f.filename, path := f.relative_path,
                          type := "function", name := some s.name } }) ++
         cls.map (fun s =>
          { source := if s.llm_hint = "" then "Class " ++ s.name ++ " in " ++ f.filename
                      else s.llm_hint,
            metadata := { file := f.filename, path := f.relative_path,
                          type := "class", name := some s.name } }) ++
         [{ source := if f.llm_hint = "" then f.full_content else f.llm_hint,
            metadata := { file := f.filename, path := f.relative_path,
                          type := "file", name := none } }]) ++
      extract_texts_for_embedding post ∧
    (chunks_for_file f).length = (fns.length + cls.length) + 1 := by
  constructor
  · rw [extract_texts_eq_join, extract_texts_eq_join, extract_texts_eq_join]
    simp [chunks_for_file, h, List.append_assoc]
    rfl
  · simp [chunks_for_file, h]
    omega

/-- Witness for C5 at a record with one hint-less function symbol and
one hinted class symbol: three chunks, in symbol-then-file order. -/
theorem C5_chunks_per_file_witness :
    extract_texts_for_embedding [c5_record] =
      [{ source := "Function foo in a.py",
         metadata := { file := "a.py", path := "a.py", type := "function", name := some "foo" } },
       { source := "Analyze the class Bar.",
         metadata := { file := "a.py", path := "a.py", type := "class", name := some "Bar" } },
       { source := "file body",
         metadata := { file := "a.py", path := "a.py", type := "file", name := none } }] ∧
    (chunks_for_file c5_record).length = 3 := by
  have hw := C5_chunks_per_file [] [] c5_record [c5_fn_symbol] [c5_cls_symbol] rfl
  refine ⟨?_, hw.2⟩
  simpa [c5_record, c5_fn_symbol, c5_cls_symbol] using hw.1

/-- C6 counterexample: an unreadable file produces a record whose
`full_content` is the sentinel string (and whose size falls back to 0),
with no typed error value in any error-capable sub-field — the
tokenization of the sentinel succeeds and no AST field exists — so the
read failure is not captured as a typed error value. -/
theorem C6_untyped_read_error_counterexample :
    (get_file_info ok_encoder byte_slice0 parse_ok0 (some parse_ok0) c6_unreadable_input
        "generic" false).full_content = "<<Error reading file: Permission denied>>" ∧
    has_typed_error (get_file_info ok_encoder byte_slice0 parse_ok0 (some parse_ok0)
        c6_unreadable_input "generic" false) = false ∧
    (get_file_info ok_encoder byte_slice0 parse_ok0 (some parse_ok0) c6_unreadable_input
        "generic" false).size_bytes = 0 := by
  decide

/-- C6 (amended): every per-file recoverable failure leaves
`get_file_info` total and the scan running: a read failure is recorded
by substituting the sentinel string as the record's content, a tokenizer
failure becomes the typed error dict in `tokenization`, a parser failure
becomes the typed error dict in `ast_analysis`, and the collection loop
keeps every completed record of the remaining files regardless of
interleaved failures. -/
theorem C6_per_file_errors_recovered (encoder : String → Except String (List Nat × String))
    (slice : String → Nat → Nat → String)
    (parse_py : String → Except String TSNode)
    (parse_js : Option (String → Except String TSNode))
    (inp : FileInput) (project_type : String) (llm_hint : Bool)
    (dirname : String → String) (outcomes : List (Except String FileRecord)) :
    (∀ e, inp.read_result = Except.error e →
      (get_file_info encoder slice parse_py parse_js inp project_type llm_hint).full_content =
        "<<Error reading file: " ++ e ++ ">>") ∧
    (∀ e, encoder (content_of inp) = Except.error e →
      (get_file_info encoder slice parse_py parse_js inp project_type llm_hint).tokenization =
        TokResult.err e) ∧
    (∀ e, project_type = "python_backend" → computed_ext inp.raw_ext = ".py" →
      parse_py (content_of inp) = Except.error e →
      (get_file_info encoder slice parse_py parse_js inp project_type llm_hint).ast_analysis =
        some (AstResult.err ("Tree-sitter parse error: " ++ e))) ∧
    ((collect_results dirname outcomes).repo_files = outcomes.filterMap outcome_record) := by
  refine ⟨?_, ?_, ?_, ?_⟩
  · intro e he
    simp [get_file_info, content_of, he]
  · intro e he
    simp [get_file_info, tokenize_content, he]
  · intro e hpt hext hpe
    subst hpt
    simp [get_file_info, hext, analyze_file, analyze_python_file_treesitter, hpe,
      show py_lower "python" = "python" from by decide]
  · simpa using (collect_results_foldl dirname outcomes ⟨[], 0, 0, []⟩).1

/-- Witness for C6 at a Python file whose read, tokenization and parse
all fail: the three typed/sentinel captures appear in one record. -/
theorem C6_per_file_errors_recovered_witness :
    (get_file_info err_encoder byte_slice0 parse_err0 (some parse_ok0) c6_bad_input
        "python_backend" false).full_content = "<<Error reading file: boom>>" ∧
    (get_file_info err_encoder byte_slice0 parse_err0 (some parse_ok0) c6_bad_input
        "python_backend" false).tokenization = TokResult.err "tokenizer failed" ∧
    (get_file_info err_encoder byte_slice0 parse_err0 (some parse_ok0) c6_bad_input
        "python_backend" false).ast_analysis =
      some (AstResult.err ("Tree-sitter parse error: bad bytes")) := by
  have h := C6_per_file_errors_recovered err_encoder byte_slice0 parse_err0 (some parse_ok0)
    c6_bad_input "python_backend" false (fun _ => ".") []
  exact ⟨h.1 "boom" rfl, h.2.1 "tokenizer failed" rfl,
    h.2.2.1 "bad bytes" rfl (by decide) rfl⟩

/-- C1 (evaluation at the failing input): with one blank chunk and one
non-blank chunk — in either order — the embedding block filters the
blank text before embedding, but its join loop then indexes the
filtered `embeddings`/`cluster_assignment` arrays with positions of the
unfiltered chunk list, and raises `IndexError` instead of leaving the
blank chunk without a vector and cluster. -/
theorem C1_join_loop_index_error :
    embedding_block c1_embed c1_fit_predict
        (extract_texts_for_embedding [c1_empty_record, c1_code_record]) =
      EmbedOutcome.crashed ∧
    embedding_block c1_embed c1_fit_predict
        (extract_texts_for_embedding [c1_code_record, c1_empty_record]) =
      EmbedOutcome.crashed := by
  decide

/-- C7: on every successfully parsed tree, both analyzers return the
(error-free) symbol lists obtained by filtering the full pre-order node
list through the per-node specification: a node matching the
function-definition or class-definition grammar rule yields a symbol
named by its first `identifier` child with the node's span copied
verbatim, and a matching node without such a child yields nothing. -/
theorem C7_symbols_from_first_identifier_child (slice : Nat → Nat → String)
    (llm_hunt : Bool) (root : TSNode) :
    analyze_python_file_treesitter slice (Except.ok root) llm_hunt =
      AstResult.ok
        ((preorder root).filterMap
          (symbol_of_node slice llm_hunt "function_definition" python_rules.function_hint))
        ((preorder root).filterMap
          (symbol_of_node slice llm_hunt "class_definition" python_rules.class_hint)) ∧
    analyze_javascript_file_treesitter slice (some (Except.ok root)) llm_hunt =
      AstResult.ok
        ((preorder root).filterMap
          (symbol_of_node slice llm_hunt "function_declaration" javascript_rules.function_hint))
        ((preorder root).filterMap
          (symbol_of_node slice llm_hunt "class_declaration" javascript_rules.class_hint)) := by
  have hpy := (traverse_spec python_rules slice llm_hunt (by decide) (tsnode_size root)).1
    root (le_refl _) ([], [])
  have hjs := (traverse_spec javascript_rules slice llm_hunt (by decide) (tsnode_size root)).1
    root (le_refl _) ([], [])
  constructor
  · simp only [analyze_python_file_treesitter, hpy]
    simp [python_rules]
  · simp only [analyze_javascript_file_treesitter, hjs]
    simp [javascript_rules]

end CodeToPipeline
